import Mathlib

/-!
Verification of the ondutycat alert-triage core against its specification.

The definitions below are a shallow embedding of the TypeScript source:
  - src/lib/agent/mcp-util.ts           (AgentOrchestrator: invoke, parseXMLResponse,
                                         determineIfRealIssueFromXML, createIssue,
                                         processTenantAlerts)
  - src/lib/agent/skill-matcher.ts      (SkillMatcher: matchSkill, matchManualBinding,
                                         patternMatches, matchSemantic,
                                         calculateKeywordSimilarity)
  - src/lib/agent/middlewares/tool-error.ts (createToolErrorhandlerMiddleware)
  - src/lib/agent/tools/run-code.ts     (executeInVM)
  - src/unnamed/part_000                (xmlToJSON three-stage recovery,
                                         wrapTagsWithCDATA)

JavaScript strings are modelled as Lean String values; the ASCII case maps of
Char.toLower and Char.toUpper stand in for the JavaScript case conversions.
JavaScript numbers that only ever hold small exact fractions (the keyword
similarity scores) are modelled as rationals.  Database access through prisma
is modelled by explicit state passing over a DB record, and the LangChain
model call by an oracle value describing how the external model behaves.
-/

namespace Ondutycat

/-! ## String primitives shared by several components -/

/-- Decides whether the first list is a prefix of the second, by character. -/
def charsIsPrefixOf : List Char → List Char → Bool
  | [], _ => true
  | _ :: _, [] => false
  | a :: as, b :: bs => a == b && charsIsPrefixOf as bs

/-- Decides whether the pattern occurs as a contiguous sublist, like the
JavaScript String.prototype.includes test. -/
def charsHasSub (pat : List Char) : List Char → Bool
  | [] => charsIsPrefixOf pat []
  | c :: rest => charsIsPrefixOf pat (c :: rest) || charsHasSub pat rest

/-- Model of the JavaScript expression s.includes(pat). -/
def strIncludes (s pat : String) : Bool :=
  charsHasSub pat.data s.data

/-- Model of the JavaScript expression s.toUpperCase() on ASCII text. -/
def strToUpper (s : String) : String :=
  ⟨s.data.map Char.toUpper⟩

/-- Model of the JavaScript expression s.toLowerCase() on ASCII text. -/
def strToLower (s : String) : String :=
  ⟨s.data.map Char.toLower⟩

/-- Finds the earliest occurrence of the pattern in the input and splits
around it, returning the characters before the match and the characters
after the match.  Returns none when the pattern does not occur. -/
def findSub (pat : List Char) : List Char → Option (List Char × List Char)
  | [] => if charsIsPrefixOf pat [] then some ([], []) else none
  | c :: rest =>
    if charsIsPrefixOf pat (c :: rest) then
      some ([], (c :: rest).drop pat.length)
    else
      match findSub pat rest with
      | some (before, after) => some (c :: before, after)
      | none => none

/-! ## determineIfRealIssueFromXML (src/lib/agent/mcp-util.ts lines 281 to 307)

The parsed model response is an untyped JSON value at runtime, so it is
modelled by a small inductive JSValue type mirroring the JavaScript values
that can appear.  Field access and truthiness follow JavaScript semantics. -/

/-- Untyped JavaScript value, as far as the embedded code inspects one. -/
inductive JSValue where
  | undefv : JSValue
  | jsNull : JSValue
  | bool : Bool → JSValue
  | num : Int → JSValue
  | str : String → JSValue
  | obj : List (String × JSValue) → JSValue
deriving Repr

/-- JavaScript truthiness of a value. -/
def truthy : JSValue → Bool
  | .undefv => false
  | .jsNull => false
  | .bool b => b
  | .num n => n != 0
  | .str s => !s.isEmpty
  | .obj _ => true

/-- JavaScript property access v.k, yielding undefined when absent or when
the receiver is not an object carrying the key. -/
def getField (v : JSValue) (k : String) : JSValue :=
  match v with
  | .obj fields =>
    match fields.find? (fun p => p.1 == k) with
    | some p => p.2
    | none => .undefv
  | _ => .undefv

/-- Extracts a JavaScript string value, when the value is a string. -/
def jsStrOpt : JSValue → Option String
  | .str s => some s
  | _ => none

/-- Model of determineIfRealIssueFromXML from src/lib/agent/mcp-util.ts.
The source reads result.analysis.conclusion behind optional chaining,
returns null when that is falsy, upper-cases it, and tests the three
known tokens by substring containment in this order: REAL_ISSUE,
FALSE_POSITIVE, NEEDS_MORE_INFO; every remaining case yields null.
A truthy non-string conclusion never occurs in the parsed payloads the
orchestrator builds and is mapped to null here. -/
def determineIfRealIssueFromXML (result : Option JSValue) : Option Bool :=
  match result with
  | none => none
  | some r =>
    let conclusionV := getField (getField r "analysis") "conclusion"
    if !truthy conclusionV then
      none
    else
      match jsStrOpt conclusionV with
      | none => none
      | some c =>
        let conclusion := strToUpper c
        if strIncludes conclusion "REAL_ISSUE" || conclusion == "REAL_ISSUE" then
          some true
        else if strIncludes conclusion "FALSE_POSITIVE" || conclusion == "FALSE_POSITIVE" then
          some false
        else if strIncludes conclusion "NEEDS_MORE_INFO" || conclusion == "NEEDS_MORE_INFO" then
          none
        else
          none

/-- Builds the parsed-result shape the classifier expects: an object whose
analysis field carries a conclusion string. -/
def mkParsedResult (c : String) : JSValue :=
  .obj [("analysis", .obj [("conclusion", .str c)])]

/-! ## Three-stage XML recovery (src/unnamed/part_000)

The repair transformations are translated from the source.  The strict XML
parser the source delegates to (xml2js / sax in strict mode) is an external
library; it is modelled by the xmlScan well-formedness checker below, which
accepts exactly the fragment of XML those documents use: nested tags,
character data without stray ampersands or angle brackets, the five named
entity references plus numeric ones, and CDATA sections. -/

/-- Character class for XML names, as the scanner needs it. -/
def isNameChar (c : Char) : Bool :=
  c.isAlphanum || c == '_' || c == '-' || c == '.' || c == ':'

/-- Leading characters form at least one decimal digit followed by a
semicolon. -/
def digitsThenSemi (cs : List Char) : Bool :=
  let digits := cs.takeWhile Char.isDigit
  !digits.isEmpty &&
    (match cs.drop digits.length with
     | ';' :: _ => true
     | _ => false)

/-- Leading characters form at least one hexadecimal digit followed by a
semicolon. -/
def hexThenSemi (cs : List Char) : Bool :=
  let hs := cs.takeWhile (fun c => "0123456789abcdefABCDEF".data.contains c)
  !hs.isEmpty &&
    (match cs.drop hs.length with
     | ';' :: _ => true
     | _ => false)

/-- Lookahead test of the regular expression
(amp|lt|gt|quot|apos|#digits|#x hexdigits) followed by a semicolon, applied
to the text after an ampersand.  This is the negative-lookahead set of the
escape step in xmlToJSON and the entity set sax accepts in strict mode. -/
def isEntityRef (rest : List Char) : Bool :=
  charsIsPrefixOf "amp;".data rest ||
  charsIsPrefixOf "lt;".data rest ||
  charsIsPrefixOf "gt;".data rest ||
  charsIsPrefixOf "quot;".data rest ||
  charsIsPrefixOf "apos;".data rest ||
  (match rest with
   | '#' :: 'x' :: more => hexThenSemi more
   | '#' :: more => digitsThenSemi more
   | _ => false)

/-- Scan underlying the stage-2 repair: every ampersand whose lookahead is
not a recognized entity reference is replaced by the amp entity, all other
characters are kept. -/
def fixAmpGo : List Char → List Char
  | [] => []
  | '&' :: rest =>
    if isEntityRef rest then '&' :: fixAmpGo rest
    else "&amp;".data ++ fixAmpGo rest
  | c :: rest => c :: fixAmpGo rest

/-- Model of the stage-2 repair in xmlToJSON from src/unnamed/part_000:
the global replacement of each ampersand not already part of a recognized
entity reference by the amp entity. -/
def fixAmpersands (s : String) : String :=
  ⟨fixAmpGo s.data⟩

/-- Opening marker of a CDATA section. -/
def cdataMark : List Char := "<![CDATA[".data

/-- Closing marker of a CDATA section. -/
def cdataEnd : List Char := "]]>".data

/-- Scan underlying wrapTagsWithCDATA for a single tag: each occurrence of
the opening tag followed (non-greedily) by the closing tag has its content
wrapped in a CDATA section unless the content already contains one; the
scan continues after the closing tag, and unmatched text is copied. -/
def wrapOneTagGo (openT closeT : List Char) : Nat → List Char → List Char
  | 0, cs => cs
  | _ + 1, [] => []
  | fuel + 1, c :: rest =>
    if charsIsPrefixOf openT (c :: rest) then
      match findSub closeT ((c :: rest).drop openT.length) with
      | some (content, after) =>
        if charsHasSub cdataMark content then
          openT ++ content ++ closeT ++ wrapOneTagGo openT closeT fuel after
        else
          openT ++ cdataMark ++ content ++ cdataEnd ++ closeT ++
            wrapOneTagGo openT closeT fuel after
      | none => c :: wrapOneTagGo openT closeT fuel rest
    else
      c :: wrapOneTagGo openT closeT fuel rest

/-- Model of wrapTagsWithCDATA from src/unnamed/part_000: for each tag in
order, wrap the content of every matched tag pair in a CDATA section if not
already wrapped. -/
def wrapTagsWithCDATA (xml : String) (tags : List String) : String :=
  tags.foldl
    (fun acc tag =>
      let openT := ("<" ++ tag ++ ">").data
      let closeT := ("</" ++ tag ++ ">").data
      ⟨wrapOneTagGo openT closeT acc.data.length acc.data⟩)
    xml

/-- Splits a list into the run of name characters and the remainder. -/
def parseName (cs : List Char) : List Char × List Char :=
  (cs.takeWhile isNameChar, cs.dropWhile isNameChar)

/-- Well-formedness scanner modelling the strict XML parser the source
hands the document to.  The stack holds the open element names, the flag
records whether a root element has been seen.  Stray ampersands that do not
begin a recognized entity reference, stray opening angle brackets that do
not begin a tag or CDATA section, mismatched or unclosed tags, text or
entities outside the root, and a second root element are all rejected. -/
def xmlScan : Nat → List String → Bool → List Char → Bool
  | 0, _, _, _ => false
  | _ + 1, stack, rootSeen, [] => stack.isEmpty && rootSeen
  | fuel + 1, stack, rootSeen, '<' :: rest =>
    if charsIsPrefixOf "![CDATA[".data rest then
      if stack.isEmpty then false
      else
        match findSub cdataEnd (rest.drop "![CDATA[".data.length) with
        | some (_, after) => xmlScan fuel stack rootSeen after
        | none => false
    else
      match rest with
      | '/' :: nameRest =>
        let (name, after) := parseName nameRest
        (match after with
         | '>' :: more =>
           (match stack with
            | top :: stackRest =>
              if top == String.mk name then xmlScan fuel stackRest rootSeen more
              else false
            | [] => false)
         | _ => false)
      | _ =>
        let (name, after) := parseName rest
        if name.isEmpty then false
        else
          match after with
          | '>' :: more =>
            if stack.isEmpty && rootSeen then false
            else xmlScan fuel (String.mk name :: stack) true more
          | '/' :: '>' :: more =>
            if stack.isEmpty && rootSeen then false
            else xmlScan fuel stack true more
          | _ => false
  | fuel + 1, stack, rootSeen, '&' :: rest =>
    if stack.isEmpty then false
    else if isEntityRef rest then
      match findSub [';'] rest with
      | some (_, after) => xmlScan fuel stack rootSeen after
      | none => false
    else false
  | fuel + 1, stack, rootSeen, c :: rest =>
    if stack.isEmpty && !c.isWhitespace then false
    else xmlScan fuel stack rootSeen rest

/-- Whole-document well-formedness for the modelled parser. -/
def xmlWellFormed (s : String) : Bool :=
  xmlScan (s.data.length + 1) [] false s.data

/-- Result of the three-stage cascade: the stage that succeeded together
with the exact document string handed to the parser at that stage, or
failure of all three stages. -/
inductive XmlParseOutcome where
  | parsed : Nat → String → XmlParseOutcome
  | failed : XmlParseOutcome
deriving Repr, DecidableEq

/-- Model of xmlToJSON from src/unnamed/part_000: parse verbatim; on
failure escape stray ampersands and retry; on failure apply the escape and
additionally wrap the content, answer and detailed_analysis tags in CDATA
sections and retry; when all three stages fail the thrown error escapes
(represented by the failed outcome).  The JSON value a successful stage
produces is modelled separately by xmlToObj. -/
def xmlToJSON (xml : String) : XmlParseOutcome :=
  if xmlWellFormed xml then .parsed 1 xml
  else
    let staged2 := fixAmpersands xml
    if xmlWellFormed staged2 then .parsed 2 staged2
    else
      let staged3 :=
        wrapTagsWithCDATA (fixAmpersands xml) ["content", "answer", "detailed_analysis"]
      if xmlWellFormed staged3 then .parsed 3 staged3 else .failed

/-- Scan replacing each CDATA section by its raw content, as the parser
reports CDATA text. -/
def stripCDATAGo : Nat → List Char → List Char
  | 0, cs => cs
  | _ + 1, [] => []
  | fuel + 1, c :: rest =>
    if charsIsPrefixOf cdataMark (c :: rest) then
      match findSub cdataEnd ((c :: rest).drop cdataMark.length) with
      | some (content, after) => content ++ stripCDATAGo fuel after
      | none => c :: stripCDATAGo fuel rest
    else
      c :: stripCDATAGo fuel rest

/-- Scan decoding the five named entity references, as the parser reports
character data.  Numeric references are left untouched by this model. -/
def decodeEntitiesGo : Nat → List Char → List Char
  | 0, cs => cs
  | _ + 1, [] => []
  | fuel + 1, '&' :: rest =>
    if charsIsPrefixOf "amp;".data rest then '&' :: decodeEntitiesGo fuel (rest.drop 4)
    else if charsIsPrefixOf "lt;".data rest then '<' :: decodeEntitiesGo fuel (rest.drop 3)
    else if charsIsPrefixOf "gt;".data rest then '>' :: decodeEntitiesGo fuel (rest.drop 3)
    else if charsIsPrefixOf "quot;".data rest then '"' :: decodeEntitiesGo fuel (rest.drop 5)
    else if charsIsPrefixOf "apos;".data rest then
      Char.ofNat 39 :: decodeEntitiesGo fuel (rest.drop 5)
    else '&' :: decodeEntitiesGo fuel rest
  | fuel + 1, c :: rest => c :: decodeEntitiesGo fuel rest

/-- Removes leading and trailing whitespace, mirroring the trim option of
the parser. -/
def trimChars (cs : List Char) : List Char :=
  ((cs.dropWhile Char.isWhitespace).reverse.dropWhile Char.isWhitespace).reverse

/-- Text content of the first matched pair of the given tag inside the
document, with CDATA unwrapped, entities decoded and surrounding whitespace
trimmed, mirroring the parser options trim true. -/
def tagText (tag : String) (doc : String) : Option String :=
  let openT := ("<" ++ tag ++ ">").data
  let closeT := ("</" ++ tag ++ ">").data
  match findSub openT doc.data with
  | none => none
  | some (_, afterOpen) =>
    match findSub closeT afterOpen with
    | none => none
    | some (content, _) =>
      some ⟨trimChars (decodeEntitiesGo content.length (stripCDATAGo content.length content))⟩

/-- Model of the JSON object a successful parse yields for an analysis
document under the source options (explicitArray false, mergeAttrs true,
trim true, explicitRoot false): the root element is stripped and each child
element the orchestrator reads becomes a string field at the top level. -/
def xmlToObj (doc : String) : JSValue :=
  .obj (["summary", "detailed_analysis", "conclusion", "severity", "recommendation"].filterMap
    (fun t => (tagText t doc).map (fun v => (t, JSValue.str v))))

/-! ## Data model (prisma schema, as the orchestrator reads and writes it) -/

/-- Alert record, with the fields the agent core reads. -/
structure Alert where
  id : String
  tenantId : String
  source : String
  alertType : String
  severity : String
  title : String
  description : Option String
  status : String
deriving Repr, DecidableEq

/-- Issue record, with the fields the orchestrator writes. -/
structure Issue where
  id : String
  tenantId : String
  title : String
  description : String
  status : String
  aiConclusion : Option String
  isRealIssue : Option Bool
deriving Repr, DecidableEq

/-- Binding row linking one issue to one alert. -/
structure IssueAlertBinding where
  tenantId : String
  issueId : String
  alertId : String
deriving Repr, DecidableEq

/-- Tool record, with the fields the tenant-tool query filters on. -/
structure Tool where
  id : String
  tenantId : String
  name : String
  status : String
deriving Repr, DecidableEq

/-- Issue log row written by logAgentSteps. -/
structure IssueLogRow where
  issueId : String
  logType : String
  content : String
deriving Repr, DecidableEq

/-- Persistent store observed and updated through the prisma collaborator,
modelled by explicit state passing.  The counter feeds generated issue
identifiers. -/
structure DB where
  nextId : Nat
  tools : List Tool
  issues : List Issue
  bindings : List IssueAlertBinding
  issueLogs : List IssueLogRow
  alerts : List Alert
deriving Repr, DecidableEq

/-- Externally visible side effects of one processTenantAlerts run, in the
order the source performs them. -/
inductive Event where
  | toolsQueried : Event
  | modelInvoked : Event
  | issueCreated : Event
  | bindingsCreated : Event
  | alertsUpdated : Event
  | logsWritten : Event
deriving Repr, DecidableEq

/-- Behavior of the external LangChain model call inside invoke: it either
resolves with a response text or rejects with an error message. -/
inductive ModelBehavior where
  | responds : String → ModelBehavior
  | throws : String → ModelBehavior
deriving Repr, DecidableEq

/-! ## AgentOrchestrator (src/lib/agent/mcp-util.ts lines 119 to 440) -/

/-- Model of the regular-expression extraction in parseXMLResponse: the
first occurrence of an analysis element, non-greedily up to the first
closing tag, tags included. -/
def extractAnalysisBlock (s : String) : Option String :=
  match findSub "<analysis>".data s.data with
  | none => none
  | some (_, afterOpen) =>
    match findSub "</analysis>".data afterOpen with
    | none => none
    | some (content, _) =>
      some ⟨"<analysis>".data ++ content ++ "</analysis>".data⟩

/-- Model of parseXMLResponse from src/lib/agent/mcp-util.ts: extract the
analysis block, hand it to xmlToJSON, and map every failure (no block, or
all recovery stages exhausted) to null through the surrounding catch. -/
def parseXMLResponse (response : String) : Option JSValue :=
  match extractAnalysisBlock response with
  | none => none
  | some block =>
    match xmlToJSON block with
    | .parsed _ doc => some (xmlToObj doc)
    | .failed => none

/-- Value of the invoke step handed to the persistence steps.  The spread
of the parsed object places its top-level fields on the result, of which
the pipeline only reads conclusion; logs stay empty in this source
revision. -/
structure InvokeResult where
  conclusion : Option String
  isRealIssue : Option Bool
  errors : List String
deriving Repr, DecidableEq

/-- Model of invoke from src/lib/agent/mcp-util.ts: build the context,
call the agent, parse the response and derive isRealIssue; any thrown
error is caught, recorded in errors, and degraded to a null verdict. -/
def invoke (model : ModelBehavior) : InvokeResult :=
  match model with
  | .throws msg =>
    { conclusion := none, isRealIssue := none, errors := [msg] }
  | .responds text =>
    let analysisResult := parseXMLResponse text
    { conclusion := analysisResult.bind (fun v => jsStrOpt (getField v "conclusion")),
      isRealIssue := determineIfRealIssueFromXML analysisResult,
      errors := [] }

/-- Model of generateIssueTitle from src/lib/agent/mcp-util.ts. -/
def generateIssueTitle (alerts : List Alert) : String :=
  match alerts with
  | [a] => a.title
  | _ =>
    let types := (alerts.map (fun a => a.alertType)).foldl
      (fun acc t => if acc.contains t then acc else acc ++ [t]) []
    if types.length == 1 then
      toString alerts.length ++ "x " ++ types.headD "" ++ " alerts"
    else
      "Batch of " ++ toString alerts.length ++ " alerts"

/-- Model of generateIssueDescription from src/lib/agent/mcp-util.ts. -/
def generateIssueDescription (alerts : List Alert) : String :=
  "Grouped alerts:\n" ++
    String.intercalate "\n"
      (alerts.map (fun a => "- " ++ a.title ++ ": " ++ (a.description.getD "No description")))

/-- Model of determineInitialStatus from src/lib/agent/mcp-util.ts. -/
def determineInitialStatus : Option Bool → String
  | some true => "in_progress"
  | some false => "false_positive"
  | none => "analyzing"

/-- Issue row createIssue inserts for a batch headed by the given alert. -/
def mkIssue (db : DB) (a0 : Alert) (alerts : List Alert) (result : InvokeResult) : Issue :=
  { id := "issue-" ++ toString db.nextId
    tenantId := a0.tenantId
    title := generateIssueTitle alerts
    description := generateIssueDescription alerts
    status := determineInitialStatus result.isRealIssue
    aiConclusion := result.conclusion
    isRealIssue := result.isRealIssue }

/-- Model of createIssue from src/lib/agent/mcp-util.ts: insert one issue
for the tenant of the first alert, insert one binding per alert pointing at
that issue, and mark every alert of the batch investigating.  Generated
identifiers come from the state counter. -/
def createIssue (a0 : Alert) (alerts : List Alert) (result : InvokeResult) (db : DB) :
    String × DB × List Event :=
  let issue := mkIssue db a0 alerts result
  let db1 : DB := { db with nextId := db.nextId + 1, issues := db.issues ++ [issue] }
  let db2 : DB := { db1 with
    bindings := db1.bindings ++
      alerts.map (fun al : Alert =>
        ({ tenantId := al.tenantId, issueId := issue.id, alertId := al.id } : IssueAlertBinding)) }
  let db3 : DB := { db2 with
    alerts := db2.alerts.map (fun al : Alert =>
      if alerts.any (fun x => x.id == al.id) then { al with status := "investigating" } else al) }
  (issue.id, db3, [.issueCreated, .bindingsCreated, .alertsUpdated])

/-- Model of logAgentSteps from src/lib/agent/mcp-util.ts: nothing is
written for an empty log list. -/
def logAgentSteps (issueId : String) (logs : List (String × String)) (db : DB) :
    DB × List Event :=
  if logs.isEmpty then (db, [])
  else
    ({ db with issueLogs := db.issueLogs ++
        logs.map (fun l => { issueId := issueId, logType := l.1, content := l.2 }) },
     [.logsWritten])

/-- Model of the tenant tool query in getTenantTools. -/
def getTenantTools (db : DB) (tenantId : String) : List Tool :=
  db.tools.filter (fun t => t.tenantId == tenantId && t.status == "active")

/-- Result row returned to the caller of processTenantAlerts. -/
structure AgentProcessingResult where
  issueId : String
  alertIds : List String
  conclusion : Option String
  isRealIssue : Option Bool
  errors : List String
deriving Repr, DecidableEq

/-- Model of processTenantAlerts from src/lib/agent/mcp-util.ts: an empty
batch returns immediately; otherwise the tenant tools are queried, the
model is invoked through invoke, the issue and its bindings are persisted
through createIssue, the (empty) agent logs are flushed, and one result row
is returned.  The event list records the side effects in source order. -/
def processTenantAlerts (model : ModelBehavior) (alerts : List Alert) (db : DB) :
    List AgentProcessingResult × DB × List Event :=
  match alerts with
  | [] => ([], db, [])
  | a0 :: rest =>
    let _tools := getTenantTools db a0.tenantId
    let result := invoke model
    let (issueId, db1, issueEvents) := createIssue a0 (a0 :: rest) result db
    let (db2, logEvents) := logAgentSteps issueId [] db1
    ([{ issueId := issueId
        alertIds := (a0 :: rest).map (fun a => a.id)
        conclusion := result.conclusion
        isRealIssue := result.isRealIssue
        errors := result.errors }],
     db2,
     [Event.toolsQueried, Event.modelInvoked] ++ issueEvents ++ logEvents)

/-! ## SkillMatcher (src/lib/agent/skill-matcher.ts lines 103 to 274)

This is the SkillMatcher revision that defines the semantic fallback: its
matchSkill takes one alert, tries the manual bindings in priority order and
falls back to keyword-similarity scoring.  Regular-expression compilation
and matching are external to the embedded algorithm and enter as an oracle:
compilation either fails or yields a case-insensitive matcher function. -/

/-- Skill record, with the fields the matcher reads. -/
structure Skill where
  id : String
  name : String
  problemDescription : String
  sop : String
  status : String
deriving Repr, DecidableEq

/-- Manual binding row, with its skill joined in, as the prisma query
returns it.  Binding lists are assumed ordered by descending priority, the
order the query requests. -/
structure AlertSkillBinding where
  alertPattern : String
  skill : Skill
  priority : Int
deriving Repr, DecidableEq

/-- Match type tag of a skill match. -/
inductive MatchType where
  | manual_binding : MatchType
  | semantic : MatchType
deriving Repr, DecidableEq

/-- Match returned by the matcher. -/
structure SkillMatch where
  skill : Skill
  matchType : MatchType
  confidence : ℚ
deriving Repr, DecidableEq

/-- Oracle for JavaScript regular-expression compilation with the i flag:
failure models an invalid pattern, success yields the compiled test. -/
def RegexOracle : Type := String → Option (String → Bool)

/-- Model of the JavaScript test s.startsWith(pat). -/
def strStartsWith (s pat : String) : Bool :=
  charsIsPrefixOf pat.data s.data

/-- Model of the JavaScript test s.endsWith(pat). -/
def strEndsWith (s pat : String) : Bool :=
  charsIsPrefixOf pat.data.reverse s.data.reverse

/-- Model of the JavaScript expression s.slice(1, -1). -/
def strSliceBody (s : String) : String :=
  ⟨(s.data.drop 1).dropLast⟩

/-- Model of patternMatches from src/lib/agent/skill-matcher.ts: a pattern
delimited by slashes is compiled as a regular expression and tested against
title, type and description; when compilation fails the pattern text is
lower-cased and tested for containment of the lower-cased alert title.  A
plain pattern is tested as a lower-cased substring of title, type and
description. -/
def patternMatches (compileRegex : RegexOracle) (pattern : String) (alert : Alert) : Bool :=
  if strStartsWith pattern "/" && strEndsWith pattern "/" then
    match compileRegex (strSliceBody pattern) with
    | some test =>
      test alert.title || test alert.alertType ||
        (match alert.description with
         | some d => test d
         | none => false)
    | none => strIncludes (strToLower pattern) (strToLower alert.title)
  else
    let lowerPattern := strToLower pattern
    strIncludes (strToLower alert.title) lowerPattern ||
    strIncludes (strToLower alert.alertType) lowerPattern ||
    (match alert.description with
     | some d => strIncludes (strToLower d) lowerPattern
     | none => false)

/-- Model of matchManualBinding from src/lib/agent/skill-matcher.ts: the
first binding, in the given priority order, whose pattern matches the
alert is returned with confidence one. -/
def matchManualBinding (compileRegex : RegexOracle) (bindings : List AlertSkillBinding)
    (alert : Alert) : Option SkillMatch :=
  match bindings with
  | [] => none
  | b :: rest =>
    if patternMatches compileRegex b.alertPattern alert then
      some { skill := b.skill, matchType := .manual_binding, confidence := 1 }
    else
      matchManualBinding compileRegex rest alert

/-- Splits text on runs of whitespace, dropping empty pieces; combined with
the length filter below this coincides with the JavaScript split. -/
def splitWsGo : List Char → List Char → List String
  | acc, [] => if acc.isEmpty then [] else [⟨acc.reverse⟩]
  | acc, c :: rest =>
    if c.isWhitespace then
      if acc.isEmpty then splitWsGo [] rest else ⟨acc.reverse⟩ :: splitWsGo [] rest
    else
      splitWsGo (c :: acc) rest

/-- Word list of a text, split on whitespace. -/
def splitWs (s : String) : List String :=
  splitWsGo [] s.data

/-- First-occurrence deduplication, the JavaScript Set over a word list. -/
def dedupFirst (xs : List String) : List String :=
  xs.foldl (fun acc x => if acc.contains x then acc else acc ++ [x]) []

/-- Word set a text contributes to the similarity score: the words longer
than three characters, as a set. -/
def wordSet (text : String) : List String :=
  dedupFirst ((splitWs text).filter (fun w => w.length > 3))

/-- Model of calculateKeywordSimilarity from src/lib/agent/skill-matcher.ts:
the number of common words over the size of the larger word set, zero when
either set is empty.  Scores are exact rationals standing in for the
JavaScript floating-point quotients. -/
def calculateKeywordSimilarity (text1 text2 : String) : ℚ :=
  let words1 := wordSet text1
  let words2 := wordSet text2
  if words1.length == 0 || words2.length == 0 then 0
  else
    mkRat ((words1.filter (fun w => words2.contains w)).length : Int)
      (max words1.length words2.length)

/-- Search text of an alert: title, type and description joined by spaces
and lower-cased. -/
def alertSearchText (alert : Alert) : String :=
  strToLower (alert.title ++ " " ++ alert.alertType ++ " " ++ alert.description.getD "")

/-- Skill text of a skill: name, problem description and sop joined by
spaces and lower-cased. -/
def skillSearchText (skill : Skill) : String :=
  strToLower (skill.name ++ " " ++ skill.problemDescription ++ " " ++ skill.sop)

/-- Similarity score of an alert against a skill, as matchSemantic
computes it. -/
def semanticScore (alert : Alert) (skill : Skill) : ℚ :=
  calculateKeywordSimilarity (alertSearchText alert) (skillSearchText skill)

/-- Loop body of matchSemantic: a skill replaces the current best when its
score both beats the current best score and exceeds the threshold. -/
def semanticStep (alert : Alert) (acc : Option Skill × ℚ) (skill : Skill) : Option Skill × ℚ :=
  let score := semanticScore alert skill
  if score > acc.2 ∧ score > mkRat 1 10 then (some skill, score) else acc

/-- Model of matchSemantic from src/lib/agent/skill-matcher.ts: over the
active skills of the tenant, keep the best score above the threshold and
return that skill as a semantic match with the score as confidence. -/
def matchSemantic (skills : List Skill) (alert : Alert) : Option SkillMatch :=
  let active := skills.filter (fun s => s.status == "active")
  if active.isEmpty then none
  else
    let best := active.foldl (semanticStep alert) (none, 0)
    match best.1 with
    | some s => some { skill := s, matchType := .semantic, confidence := best.2 }
    | none => none

/-- Model of matchSkill from src/lib/agent/skill-matcher.ts: the manual
binding stage wins when it matches, otherwise the semantic stage decides. -/
def matchSkill (compileRegex : RegexOracle) (bindings : List AlertSkillBinding)
    (skills : List Skill) (alert : Alert) : Option SkillMatch :=
  match matchManualBinding compileRegex bindings alert with
  | some m => some m
  | none => matchSemantic skills alert

/-! ## Retry middleware (src/lib/agent/middlewares/tool-error.ts)

The wrapped tool handler is an oracle mapping the attempt index to either a
result or a thrown error message.  The outer Except layer represents an
exception escaping to the caller of the wrapped call; the inductive outcome
is what the middleware feeds back into the reasoning turn. -/

/-- Outcome the middleware returns to the agent: the tool result, or the
synthetic tool-failure message built from the last error. -/
inductive ToolCallOutcome (α : Type) where
  | success : α → ToolCallOutcome α
  | toolFailure : String → String → ToolCallOutcome α
deriving Repr, DecidableEq

/-- Synthetic failure content built on the final attempt. -/
def toolFailureContent (msg : String) : String :=
  "Fail, please fix, or try other tools,Error：\n" ++ msg

/-- Log line recorded for a failed attempt that still has retries left. -/
def retryLogLine (attempt maxAttempts : Nat) (msg : String) : String :=
  "重试 " ++ toString (attempt + 1) ++ "/" ++ toString maxAttempts ++ " 后出错: " ++ msg

/-- Loop of the retry middleware, indexed by the remaining loop iterations
and the current attempt index, accumulating the retry log lines. -/
def toolRetryGo (maxAttempts : Nat) (handler : Nat → Except String α) (toolCallId : String) :
    Nat → Nat → List String → Except String (ToolCallOutcome α × List String)
  | 0, _, _ => .error "max retry attempts exceeded"
  | remaining + 1, attempt, logs =>
    match handler attempt with
    | .ok r => .ok (.success r, logs)
    | .error msg =>
      if attempt == maxAttempts - 1 then
        .ok (.toolFailure (toolFailureContent msg) toolCallId, logs)
      else
        toolRetryGo maxAttempts handler toolCallId remaining (attempt + 1)
          (logs ++ [retryLogLine attempt maxAttempts msg])

/-- Model of the wrapToolCall body of createToolErrorhandlerMiddleware from
src/lib/agent/middlewares/tool-error.ts: invoke the handler up to
maxAttempts times; log and retry failures before the last attempt; convert
the final failure into a synthetic tool-failure message; only when the loop
body never runs does the closing throw escape. -/
def createToolErrorhandlerMiddleware (maxAttempts : Nat) (handler : Nat → Except String α)
    (toolCallId : String) : Except String (ToolCallOutcome α × List String) :=
  toolRetryGo maxAttempts handler toolCallId maxAttempts 0 []

/-! ## Tool sandbox (src/lib/agent/tools/run-code.ts lines 22 to 200)

The virtual-machine evaluation of a snippet is external and enters as an
oracle: compilation of the wrapped code either throws or yields a run
function from the context and the timeout to the settled snippet outcome,
the captured console lines and the final context.  The mutable host state
the source exposes to a call is threaded explicitly and has two parts:
the three global console handlers the function swaps and restores, and the
state reachable through the whitelisted host globals (Math, JSON, Date,
Object, Array, String, Promise, the timers, fetch and the rest of lines 57
to 111), which vm.createContext injects into every context BY REFERENCE:
the sandbox object itself is fresh per call, but the builtins it carries
are the single host objects, so a property a snippet writes through them
(or a prototype it pollutes) is a write to the host realm that the next
call observes.  Wall-clock timing is not modelled and the executionTime
field is fixed at zero. -/

/-- Mutable state of the host realm reachable through the injected host
globals, modelled as the properties snippets have written through them
(for example a property added to the shared Math object). -/
abbrev HostGlobals : Type := List (String × JSValue)

/-- Execution context handed to the virtual machine: a sandbox object
freshly built per call, carrying the call input and references to the
shared host globals of lines 57 to 111 of the source.  Writes through the
hostGlobals component are writes to the host realm. -/
structure SandboxCtx where
  INPUT : JSValue
  hostGlobals : HostGlobals
deriving Repr

/-- Settled outcome of the wrapped snippet inside the context: the async
wrapper resolves with a value, the inner catch turns a thrown error into an
error object, or the snippet outruns the timeout. -/
inductive SnippetRun where
  | returns : JSValue → SnippetRun
  | throws : String → SnippetRun
  | diverges : SnippetRun
deriving Repr

/-- Oracle for script compilation and execution. -/
def EvalOracle : Type :=
  String → Except String (SandboxCtx → Nat → SnippetRun × List String × SandboxCtx)

/-- Console handler slot of the host process. -/
inductive ConsoleHandler where
  | hostHandler : Nat → ConsoleHandler
  | interceptor : ConsoleHandler
deriving Repr, DecidableEq

/-- Host-process mutable state a sandbox call can touch: the three global
console handlers it swaps and restores, and the state reachable through
the shared host globals it injects into the context by reference. -/
structure HostState where
  consoleLog : ConsoleHandler
  consoleError : ConsoleHandler
  consoleWarn : ConsoleHandler
  globals : HostGlobals
deriving Repr

/-- Call options of executeInVM with defaults already applied. -/
structure RunCodeOptions where
  code : String
  input : JSValue
  timeout : Nat
deriving Repr

/-- Structured result of executeInVM. -/
structure RunCodeResult where
  success : Bool
  result : Option JSValue
  error : Option JSValue
  executionTime : Nat
  logs : Option (List String)
deriving Repr

/-- Timeout error message of executeInVM. -/
def timeoutMessage (t : Nat) : String :=
  "Execution timeout: code took longer than " ++ toString t ++ "ms"

/-- Fresh context creation: vm.createContext over a sandbox object built
from the call input and the injected references to the shared host
globals.  The object is new on every call; the host globals it carries are
not. -/
def mkSandbox (input : JSValue) (globals : HostGlobals) : SandboxCtx :=
  { INPUT := input, hostGlobals := globals }

/-- Strict JavaScript comparison of a value against false. -/
def strictEqFalse : JSValue → Bool
  | .bool false => true
  | _ => false

/-- Result assembly for a resolved snippet value, mirroring the two return
paths after the race: a truthy value carrying success strictly equal to
false is reported as a failure with its error field; anything else is a
success whose result is the value when truthy. -/
def processResolved (r : JSValue) (logs : List String) : RunCodeResult :=
  let optLogs := if logs.isEmpty then none else some logs
  if truthy r && strictEqFalse (getField r "success") then
    { success := false, result := none, error := some (getField r "error"),
      executionTime := 0, logs := optLogs }
  else
    { success := true, result := if truthy r then some r else none, error := none,
      executionTime := 0, logs := optLogs }

/-- Model of executeInVM from src/lib/agent/tools/run-code.ts: swap the
console handlers, build a fresh context from the input and the shared host
globals, compile and run the wrapped code racing the timeout, convert
every failure mode into a structured result instead of an exception, and
restore the console handlers in the finally block.  The returned state is
the host state after the call: the sandbox object and the variables the
snippet bound in it are discarded, but the writes the snippet performed
through the injected host references remain in the host realm and are
handed to the next call. -/
def executeInVM (ev : EvalOracle) (opts : RunCodeOptions) (σ : HostState) :
    RunCodeResult × HostState :=
  let originalLog := σ.consoleLog
  let originalError := σ.consoleError
  let originalWarn := σ.consoleWarn
  let _swapped : HostState :=
    { consoleLog := .interceptor, consoleError := .interceptor, consoleWarn := .interceptor,
      globals := σ.globals }
  match ev opts.code with
  | .error msg =>
    let errMsg := if strIncludes msg "timeout" then timeoutMessage opts.timeout else msg
    ({ success := false, result := none, error := some (.str errMsg),
       executionTime := 0, logs := none },
     { consoleLog := originalLog, consoleError := originalError, consoleWarn := originalWarn,
       globals := σ.globals })
  | .ok run =>
    let triple := run (mkSandbox opts.input σ.globals) opts.timeout
    let logs := triple.2.1
    let restored : HostState :=
      { consoleLog := originalLog, consoleError := originalError, consoleWarn := originalWarn,
        globals := triple.2.2.hostGlobals }
    match triple.1 with
    | .diverges =>
      ({ success := false, result := none,
         error := some (.str (timeoutMessage opts.timeout)),
         executionTime := 0, logs := if logs.isEmpty then none else some logs }, restored)
    | .throws msg =>
      (processResolved (.obj [("success", .bool false), ("error", .str msg)]) logs, restored)
    | .returns v =>
      (processResolved v logs, restored)

/-- Oracle exhibiting the shared-globals channel of executeInVM: the
writer snippet sets a property on the injected Math object, a write to the
host realm; the reader snippet returns the value of that property, or a
marker string when it is absent. -/
def leakOracle : EvalOracle :=
  fun code =>
    if code == "Math.leak = 42" then
      .ok (fun ctx _ => (.returns (.num 1), [],
        { ctx with hostGlobals := ("Math.leak", JSValue.num 42) :: ctx.hostGlobals }))
    else
      .ok (fun ctx _ =>
        (.returns (match ctx.hostGlobals.find? (fun p => p.1 == "Math.leak") with
                   | some p => p.2
                   | none => JSValue.str "unset"), [], ctx))

/-- Call options of the writer snippet of leakOracle. -/
def leakWriterOptions : RunCodeOptions :=
  { code := "Math.leak = 42", input := .obj [], timeout := 5000 }

/-- Call options of the reader snippet of leakOracle. -/
def leakReaderOptions : RunCodeOptions :=
  { code := "return Math.leak", input := .obj [], timeout := 5000 }

/-- Pristine host state for the shared-globals counterexample. -/
def leakHost0 : HostState :=
  { consoleLog := .hostHandler 0, consoleError := .hostHandler 1,
    consoleWarn := .hostHandler 2, globals := [] }

/-! ## Shared lemmas -/

theorem charsIsPrefixOf_refl (l : List Char) : charsIsPrefixOf l l = true := by
  induction l with
  | nil => rfl
  | cons c rest ih => simp [charsIsPrefixOf, ih]

theorem strIncludes_self (s : String) : strIncludes s s = true := by
  unfold strIncludes
  cases h : s.data with
  | nil => simp [charsHasSub, charsIsPrefixOf]
  | cons c rest => simp [charsHasSub, charsIsPrefixOf_refl]

theorem orBeq_eq_includes (s pat : String) :
    (strIncludes s pat || (s == pat)) = strIncludes s pat := by
  cases h : strIncludes s pat with
  | true => simp
  | false =>
    simp only [Bool.false_or]
    cases hb : (s == pat) with
    | false => rfl
    | true =>
      have hsp : s = pat := eq_of_beq hb
      rw [hsp, strIncludes_self pat] at h
      exact absurd h (by simp)

/-! ## Claim C1 -/

/-- Counterexample to claim C1: a conclusion containing both the
REAL_ISSUE token and the FALSE_POSITIVE token is ambiguous in the sense of
the claim, which requires the classification null, yet
determineIfRealIssueFromXML classifies it as true because the REAL_ISSUE
test runs first. -/
theorem determineIfRealIssue_ambiguous_counterexample :
    strIncludes (strToUpper "REAL_ISSUE or FALSE_POSITIVE") "REAL_ISSUE" = true ∧
    strIncludes (strToUpper "REAL_ISSUE or FALSE_POSITIVE") "FALSE_POSITIVE" = true ∧
    determineIfRealIssueFromXML (some (mkParsedResult "REAL_ISSUE or FALSE_POSITIVE")) =
      some true :=
  ⟨by decide, by decide, by decide⟩

/-- Claim C1 (amended): for a parsed result with a present non-empty
conclusion string, the derived isRealIssue is true exactly when the
upper-cased conclusion contains REAL_ISSUE; it is false exactly when it
contains FALSE_POSITIVE but not REAL_ISSUE; and it is null exactly when it
contains neither of these two tokens (in particular for NEEDS_MORE_INFO or
arbitrary prose); surrounding prose cannot change the classification
because the tests are substring tests. -/
theorem determineIfRealIssue_classification (r : JSValue) (c : String)
    (hc : getField (getField r "analysis") "conclusion" = JSValue.str c)
    (hne : c.isEmpty = false) :
    (determineIfRealIssueFromXML (some r) = some true ↔
      strIncludes (strToUpper c) "REAL_ISSUE" = true) ∧
    (determineIfRealIssueFromXML (some r) = some false ↔
      (strIncludes (strToUpper c) "FALSE_POSITIVE" = true ∧
       strIncludes (strToUpper c) "REAL_ISSUE" = false)) ∧
    (determineIfRealIssueFromXML (some r) = none ↔
      (strIncludes (strToUpper c) "REAL_ISSUE" = false ∧
       strIncludes (strToUpper c) "FALSE_POSITIVE" = false)) := by
  have hval : determineIfRealIssueFromXML (some r) =
      (if strIncludes (strToUpper c) "REAL_ISSUE" then some true
       else if strIncludes (strToUpper c) "FALSE_POSITIVE" then some false
       else none) := by
    simp only [determineIfRealIssueFromXML, hc, truthy, jsStrOpt, hne, Bool.not_false,
      Bool.not_true, if_false, orBeq_eq_includes]
    cases hR : strIncludes (strToUpper c) "REAL_ISSUE" <;>
      cases hF : strIncludes (strToUpper c) "FALSE_POSITIVE" <;>
        simp [hR, hF]
  rw [hval]
  cases hR : strIncludes (strToUpper c) "REAL_ISSUE" <;>
    cases hF : strIncludes (strToUpper c) "FALSE_POSITIVE" <;>
      simp

/-- Witness for the amended claim C1 at a concrete conclusion string. -/
theorem determineIfRealIssue_classification_witness :
    determineIfRealIssueFromXML (some (mkParsedResult "looks like a false_positive to me")) =
      some false :=
  ((determineIfRealIssue_classification (mkParsedResult "looks like a false_positive to me")
      "looks like a false_positive to me" rfl rfl).2.1).mpr ⟨by decide, by decide⟩

/-! ## Claim C7 -/

/-- Claim C7: an input whose only markup defect is an unescaped literal
ampersand in a text field is exactly an input the strict parser rejects but
accepts once each stray ampersand is escaped; for such an input the cascade
fails stage 1 and succeeds at stage 2 with the escaped document.  An input
whose only defect is an unescaped opening angle bracket in a free-text
field is exactly an input still rejected after the escape but accepted once
the content, answer and detailed_analysis fields are additionally wrapped
in CDATA sections; for such an input stages 1 and 2 fail and stage 3
succeeds with the wrapped document. -/
theorem xmlToJSON_recovery_stages (xml : String) :
    (xmlWellFormed xml = false →
     xmlWellFormed (fixAmpersands xml) = true →
     xmlToJSON xml = .parsed 2 (fixAmpersands xml)) ∧
    (xmlWellFormed xml = false →
     xmlWellFormed (fixAmpersands xml) = false →
     xmlWellFormed
       (wrapTagsWithCDATA (fixAmpersands xml) ["content", "answer", "detailed_analysis"]) = true →
     xmlToJSON xml = .parsed 3
       (wrapTagsWithCDATA (fixAmpersands xml) ["content", "answer", "detailed_analysis"])) := by
  constructor
  · intro h1 h2
    simp [xmlToJSON, h1, h2]
  · intro h1 h2 h3
    simp [xmlToJSON, h1, h2, h3]

/-- Witness for claim C7: a stray ampersand inside a summary field is
repaired at stage 2, a stray angle bracket inside a detailed_analysis
field is repaired at stage 3. -/
theorem xmlToJSON_recovery_stages_witness :
    xmlToJSON "<analysis><summary>A & B</summary></analysis>" =
      .parsed 2 "<analysis><summary>A &amp; B</summary></analysis>" ∧
    xmlToJSON "<analysis><detailed_analysis>a < b</detailed_analysis></analysis>" =
      .parsed 3
        "<analysis><detailed_analysis><![CDATA[a < b]]></detailed_analysis></analysis>" := by
  constructor
  · exact ((xmlToJSON_recovery_stages "<analysis><summary>A & B</summary></analysis>").1
      (by decide) (by decide)).trans (by decide)
  · exact ((xmlToJSON_recovery_stages
      "<analysis><detailed_analysis>a < b</detailed_analysis></analysis>").2
      (by decide) (by decide) (by decide)).trans (by decide)

/-! ## Claim C10 -/

/-- Claim C10: when a slash-delimited pattern fails to compile as a
regular expression, patternMatches tests whether the lower-cased pattern
text contains the lower-cased alert title, the reverse containment of the
plain-text path, and in this fallback the alert type and description are
ignored: the outcome only depends on the title. -/
theorem patternMatches_invalid_regex_fallback (compileRegex : RegexOracle) (pattern : String)
    (alert : Alert)
    (hs : strStartsWith pattern "/" = true)
    (he : strEndsWith pattern "/" = true)
    (hc : compileRegex (strSliceBody pattern) = none) :
    patternMatches compileRegex pattern alert =
      strIncludes (strToLower pattern) (strToLower alert.title) ∧
    ∀ alert2 : Alert, alert2.title = alert.title →
      patternMatches compileRegex pattern alert2 = patternMatches compileRegex pattern alert := by
  have h1 : ∀ a : Alert, a.title = alert.title →
      patternMatches compileRegex pattern a =
        strIncludes (strToLower pattern) (strToLower alert.title) := by
    intro a hta
    simp [patternMatches, hs, he, hc, hta]
  exact ⟨h1 alert rfl, fun a2 h2 => (h1 a2 h2).trans (h1 alert rfl).symm⟩

/-- Witness for claim C10: an uncompilable slash-delimited pattern whose
text contains the whole alert title matches, even though neither type nor
description occurs in the pattern. -/
theorem patternMatches_invalid_regex_fallback_witness :
    patternMatches (fun _ => none) "/CPU usage too high is [bad/"
      { id := "a1", tenantId := "t1", source := "prom", alertType := "system",
        severity := "high", title := "CPU usage too high",
        description := some "cpu at 95", status := "open" } = true := by
  have h := (patternMatches_invalid_regex_fallback (fun _ => none)
    "/CPU usage too high is [bad/"
    { id := "a1", tenantId := "t1", source := "prom", alertType := "system",
      severity := "high", title := "CPU usage too high",
      description := some "cpu at 95", status := "open" }
    (by decide) (by decide) rfl).1
  rw [h]
  decide

/-! ## Claim C6 -/

/-- Counterexample to claim C6: the whitelisted host globals are injected
into every context by reference, so a snippet that writes through them
(here setting a property on the shared Math object) is observed by the
next execution.  The reader snippet returns the leaked 42 after the writer
ran and the marker value when run alone, so the result of running a
snippet is not the same whether or not another snippet ran before it, and
the second execution does observe state set by the first. -/
theorem executeInVM_shared_globals_counterexample :
    (executeInVM leakOracle leakReaderOptions
      ((executeInVM leakOracle leakWriterOptions leakHost0).2)).1.result =
        some (JSValue.num 42) ∧
    (executeInVM leakOracle leakReaderOptions leakHost0).1.result =
        some (JSValue.str "unset") ∧
    (executeInVM leakOracle leakReaderOptions
      ((executeInVM leakOracle leakWriterOptions leakHost0).2)).1.result ≠
      (executeInVM leakOracle leakReaderOptions leakHost0).1.result := by
  refine ⟨rfl, rfl, ?_⟩
  intro h
  have h2 : some (JSValue.num 42) = some (JSValue.str "unset") := h
  injection h2 with h3
  injection h3

/-- Claim C6 (amended): sequential executions are isolated up to the
shared host globals.  Each call evaluates its code in a freshly created
context object built from its own input and the host globals at call time,
the previous context and the variables bound in it being discarded, and
the finally block restores the three console handlers.  The result of a
call depends on the prior host state only through the host globals, so
whenever the first execution leaves the host globals unchanged, the second
execution yields the same result as if the first had never run; state
written through the injected host globals, however, does flow to the next
call (see the counterexample). -/
theorem executeInVM_isolation (ev : EvalOracle) (o1 o2 : RunCodeOptions) (σ : HostState) :
    ((executeInVM ev o1 σ).2.consoleLog = σ.consoleLog ∧
     (executeInVM ev o1 σ).2.consoleError = σ.consoleError ∧
     (executeInVM ev o1 σ).2.consoleWarn = σ.consoleWarn) ∧
    (∀ τ : HostState, τ.globals = σ.globals →
      (executeInVM ev o2 τ).1 = (executeInVM ev o2 σ).1) ∧
    ((executeInVM ev o1 σ).2.globals = σ.globals →
      (executeInVM ev o2 ((executeInVM ev o1 σ).2)).1 = (executeInVM ev o2 σ).1) := by
  have hconsole : ∀ (o : RunCodeOptions) (τ : HostState),
      (executeInVM ev o τ).2.consoleLog = τ.consoleLog ∧
      (executeInVM ev o τ).2.consoleError = τ.consoleError ∧
      (executeInVM ev o τ).2.consoleWarn = τ.consoleWarn := by
    intro o τ
    unfold executeInVM
    cases hv : ev o.code with
    | error msg => exact ⟨rfl, rfl, rfl⟩
    | ok run =>
      cases htr : (run (mkSandbox o.input τ.globals) o.timeout).1 <;> simp [htr]
  have hresult : ∀ τ : HostState, τ.globals = σ.globals →
      (executeInVM ev o2 τ).1 = (executeInVM ev o2 σ).1 := by
    intro τ hτ
    unfold executeInVM
    rw [hτ]
    cases hv : ev o2.code with
    | error msg => rfl
    | ok run =>
      cases htr : (run (mkSandbox o2.input σ.globals) o2.timeout).1 <;> simp [htr]
  exact ⟨hconsole o1 σ, hresult, fun hg => hresult _ hg⟩

/-- Witness for the amended claim C6: a snippet that echoes its input and
leaves the host globals untouched; the second execution returns the same
result whether or not the first ran. -/
theorem executeInVM_isolation_witness :
    (executeInVM (fun _ => .ok (fun ctx _ => (.returns ctx.INPUT, [], ctx)))
      { code := "return INPUT", input := .num 7, timeout := 5000 }
      ((executeInVM (fun _ => .ok (fun ctx _ => (.returns ctx.INPUT, [], ctx)))
        { code := "return INPUT", input := .num 5, timeout := 5000 }
        { consoleLog := .hostHandler 0, consoleError := .hostHandler 1,
          consoleWarn := .hostHandler 2, globals := [] }).2)).1 =
    (executeInVM (fun _ => .ok (fun ctx _ => (.returns ctx.INPUT, [], ctx)))
      { code := "return INPUT", input := .num 7, timeout := 5000 }
      { consoleLog := .hostHandler 0, consoleError := .hostHandler 1,
        consoleWarn := .hostHandler 2, globals := [] }).1 :=
  (executeInVM_isolation (fun _ => .ok (fun ctx _ => (.returns ctx.INPUT, [], ctx)))
    { code := "return INPUT", input := .num 5, timeout := 5000 }
    { code := "return INPUT", input := .num 7, timeout := 5000 }
    { consoleLog := .hostHandler 0, consoleError := .hostHandler 1,
      consoleWarn := .hostHandler 2, globals := [] }).2.2 rfl

/-! ## Claim C5 -/

/-- Counterexample to claim C5: the snippet resolves with a returned
value, the object carrying success false and an error string, yet
executeInVM reports success false and drops the value, because the result
check treats any returned object whose success field is strictly false as
a failure.  The claim states every returned value yields success true with
that value. -/
theorem executeInVM_returned_value_counterexample :
    (executeInVM
      (fun _ => .ok (fun ctx _ =>
        (.returns (JSValue.obj [("success", .bool false), ("error", .str "boom")]), [], ctx)))
      { code := "snippet that returns an object carrying a false success field",
        input := .obj [], timeout := 5000 }
      { consoleLog := .hostHandler 0, consoleError := .hostHandler 1,
        consoleWarn := .hostHandler 2, globals := [] }).1.success = false ∧
    (executeInVM
      (fun _ => .ok (fun ctx _ =>
        (.returns (JSValue.obj [("success", .bool false), ("error", .str "boom")]), [], ctx)))
      { code := "snippet that returns an object carrying a false success field",
        input := .obj [], timeout := 5000 }
      { consoleLog := .hostHandler 0, consoleError := .hostHandler 1,
        consoleWarn := .hostHandler 2, globals := [] }).1.result = none :=
  ⟨rfl, rfl⟩

/-- Claim C5 (amended): executeInVM always returns a structured result and
never lets an exception escape (the embedding is a total function into the
result type); an uncompilable snippet yields success false with the thrown
message (replaced by the timeout message when it mentions a timeout), a
timed-out snippet yields success false with the timeout message, a thrown
error yields success false with the error message, a truthy returned value
that does not itself carry a strictly false success field yields success
true with that value, and a falsy returned value yields success true with
an absent result. -/
theorem executeInVM_structured (ev : EvalOracle) (opts : RunCodeOptions) (σ : HostState) :
    (∀ msg, ev opts.code = .error msg →
      (executeInVM ev opts σ).1.success = false ∧
      (executeInVM ev opts σ).1.error =
        some (.str (if strIncludes msg "timeout" then timeoutMessage opts.timeout else msg))) ∧
    (∀ run, ev opts.code = .ok run →
      ((run (mkSandbox opts.input σ.globals) opts.timeout).1 = .diverges →
        (executeInVM ev opts σ).1.success = false ∧
        (executeInVM ev opts σ).1.error = some (.str (timeoutMessage opts.timeout))) ∧
      (∀ msg, (run (mkSandbox opts.input σ.globals) opts.timeout).1 = .throws msg →
        (executeInVM ev opts σ).1.success = false ∧
        (executeInVM ev opts σ).1.error = some (.str msg)) ∧
      (∀ v, (run (mkSandbox opts.input σ.globals) opts.timeout).1 = .returns v →
        truthy v = true → strictEqFalse (getField v "success") = false →
        (executeInVM ev opts σ).1.success = true ∧
        (executeInVM ev opts σ).1.result = some v) ∧
      (∀ v, (run (mkSandbox opts.input σ.globals) opts.timeout).1 = .returns v →
        truthy v = false →
        (executeInVM ev opts σ).1.success = true ∧
        (executeInVM ev opts σ).1.result = none)) := by
  refine ⟨?_, ?_⟩
  · intro msg h
    simp [executeInVM, h]
  · intro run h
    refine ⟨?_, ?_, ?_, ?_⟩
    · intro hd
      simp [executeInVM, h, hd]
    · intro msg hm
      simp [executeInVM, h, hm, processResolved, truthy, getField, strictEqFalse, List.find?]
    · intro v hv htr hsf
      simp [executeInVM, h, hv, processResolved, htr, hsf]
    · intro v hv htr
      simp [executeInVM, h, hv, processResolved, htr]

/-- Witness for the amended claim C5, exercising the thrown-error case and
the truthy returned-value case at concrete snippets. -/
theorem executeInVM_structured_witness :
    (executeInVM (fun _ => .ok (fun ctx _ => (.throws "boom", [], ctx)))
      { code := "snippet that throws", input := .obj [], timeout := 5000 }
      { consoleLog := .hostHandler 0, consoleError := .hostHandler 1,
        consoleWarn := .hostHandler 2, globals := [] }).1.success = false ∧
    (executeInVM (fun _ => .ok (fun ctx _ => (.returns (.num 8), [], ctx)))
      { code := "snippet that returns eight", input := .obj [], timeout := 5000 }
      { consoleLog := .hostHandler 0, consoleError := .hostHandler 1,
        consoleWarn := .hostHandler 2, globals := [] }).1.result = some (.num 8) := by
  constructor
  · exact (((executeInVM_structured (fun _ => .ok (fun ctx _ => (.throws "boom", [], ctx)))
      { code := "snippet that throws", input := .obj [], timeout := 5000 }
      { consoleLog := .hostHandler 0, consoleError := .hostHandler 1,
        consoleWarn := .hostHandler 2, globals := [] }).2 _ rfl).2.1 "boom" rfl).1
  · exact (((executeInVM_structured (fun _ => .ok (fun ctx _ => (.returns (.num 8), [], ctx)))
      { code := "snippet that returns eight", input := .obj [], timeout := 5000 }
      { consoleLog := .hostHandler 0, consoleError := .hostHandler 1,
        consoleWarn := .hostHandler 2, globals := [] }).2 _ rfl).2.2.1 (.num 8) rfl rfl rfl).2

/-! ## Claim C4 -/

theorem toolRetryGo_ok_run {α : Type} (N : Nat) (handler : Nat → Except String α)
    (toolCallId : String) (r : α) :
    ∀ (j attempt : Nat) (logs : List String),
      attempt + j < N →
      (∀ i, i < j → ∃ e, handler (attempt + i) = .error e) →
      handler (attempt + j) = .ok r →
      ∃ extra : List String,
        toolRetryGo N handler toolCallId (N - attempt) attempt logs =
          .ok (.success r, logs ++ extra) ∧ extra.length = j := by
  intro j
  induction j with
  | zero =>
    intro attempt logs hlt _ hok
    obtain ⟨m, hm⟩ : ∃ m, N - attempt = m + 1 := ⟨N - attempt - 1, by omega⟩
    rw [Nat.add_zero] at hok
    refine ⟨[], ?_, rfl⟩
    rw [hm]
    simp [toolRetryGo, hok]
  | succ j ih =>
    intro attempt logs hlt herr hok
    obtain ⟨e0, he0⟩ := herr 0 (Nat.succ_pos j)
    rw [Nat.add_zero] at he0
    obtain ⟨m, hm⟩ : ∃ m, N - attempt = m + 1 := ⟨N - attempt - 1, by omega⟩
    have hne : (attempt == N - 1) = false := by
      simp only [beq_eq_false_iff_ne, ne_eq]
      omega
    have hm2 : m = N - (attempt + 1) := by omega
    have hok2 : handler (attempt + 1 + j) = .ok r := by
      rw [show attempt + 1 + j = attempt + (j + 1) by omega]
      exact hok
    have herr2 : ∀ i, i < j → ∃ e, handler (attempt + 1 + i) = .error e := by
      intro i hi
      obtain ⟨e, he⟩ := herr (i + 1) (by omega)
      exact ⟨e, by rw [show attempt + 1 + i = attempt + (i + 1) by omega]; exact he⟩
    obtain ⟨extra, hgo, hlen⟩ :=
      ih (attempt + 1) (logs ++ [retryLogLine attempt N e0]) (by omega) herr2 hok2
    refine ⟨retryLogLine attempt N e0 :: extra, ?_, by simp [hlen]⟩
    rw [hm]
    simp only [toolRetryGo, he0, hne, if_false]
    rw [hm2, hgo]
    simp

theorem toolRetryGo_allfail {α : Type} (N : Nat) (handler : Nat → Except String α)
    (toolCallId : String) (es : Nat → String) :
    ∀ (j attempt : Nat) (logs : List String),
      attempt + j + 1 = N →
      (∀ i, i < N → handler i = .error (es i)) →
      ∃ extra : List String,
        toolRetryGo N handler toolCallId (N - attempt) attempt logs =
          .ok (.toolFailure (toolFailureContent (es (N - 1))) toolCallId, logs ++ extra) ∧
        extra.length = j := by
  intro j
  induction j with
  | zero =>
    intro attempt logs heq hall
    have ha : attempt = N - 1 := by omega
    have hm : N - attempt = 1 := by omega
    have he := hall attempt (by omega)
    subst ha
    refine ⟨[], ?_, rfl⟩
    rw [hm]
    simp [toolRetryGo, he]
  | succ j ih =>
    intro attempt logs heq hall
    have he0 := hall attempt (by omega)
    obtain ⟨m, hm⟩ : ∃ m, N - attempt = m + 1 := ⟨N - attempt - 1, by omega⟩
    have hne : (attempt == N - 1) = false := by
      simp only [beq_eq_false_iff_ne, ne_eq]
      omega
    have hm2 : m = N - (attempt + 1) := by omega
    obtain ⟨extra, hgo, hlen⟩ :=
      ih (attempt + 1) (logs ++ [retryLogLine attempt N (es attempt)]) (by omega) hall
    refine ⟨retryLogLine attempt N (es attempt) :: extra, ?_, by simp [hlen]⟩
    rw [hm]
    simp only [toolRetryGo, he0, hne, if_false]
    rw [hm2, hgo]
    simp

/-- Claim C4: for a tool call wrapped with maxAttempts equal to N, if the
handler fails on the first k attempts with k smaller than N and succeeds on
the next attempt, the middleware returns the success result with exactly k
logged retry lines; if all N attempts fail, no exception escapes to the
caller (the outcome is an ok value, not an error) and the synthetic
tool-failure message built from the last error is returned, with one retry
line logged per non-final attempt. -/
theorem createToolErrorhandlerMiddleware_spec {α : Type} (N : Nat)
    (handler : Nat → Except String α) (toolCallId : String) :
    (∀ k r, k < N →
      (∀ i, i < k → ∃ e, handler i = .error e) →
      handler k = .ok r →
      ∃ logs, createToolErrorhandlerMiddleware N handler toolCallId =
        .ok (.success r, logs) ∧ logs.length = k) ∧
    (∀ es : Nat → String, 1 ≤ N →
      (∀ i, i < N → handler i = .error (es i)) →
      ∃ logs, createToolErrorhandlerMiddleware N handler toolCallId =
        .ok (.toolFailure (toolFailureContent (es (N - 1))) toolCallId, logs) ∧
        logs.length = N - 1) := by
  constructor
  · intro k r hk herr hok
    obtain ⟨extra, hgo, hlen⟩ := toolRetryGo_ok_run N handler toolCallId r k 0 [] (by omega)
      (fun i hi => by simpa using herr i hi) (by simpa using hok)
    exact ⟨extra, by simpa [createToolErrorhandlerMiddleware] using hgo, hlen⟩
  · intro es hN hall
    obtain ⟨extra, hgo, hlen⟩ :=
      toolRetryGo_allfail N handler toolCallId es (N - 1) 0 [] (by omega) hall
    exact ⟨extra, by simpa [createToolErrorhandlerMiddleware] using hgo, hlen⟩

/-- Witness for claim C4: a tool failing twice then succeeding under
maxAttempts three returns the success result with two logged retries, and a
tool failing on both of two attempts returns the synthetic failure message
without raising. -/
theorem createToolErrorhandlerMiddleware_spec_witness :
    (∃ logs, createToolErrorhandlerMiddleware 3
      (fun i => if i < 2 then Except.error "boom" else Except.ok (42 : Nat)) "tc" =
      .ok (.success 42, logs) ∧ logs.length = 2) ∧
    (∃ logs, createToolErrorhandlerMiddleware 2
      (fun _ => (Except.error "fatal" : Except String Nat)) "tc" =
      .ok (.toolFailure (toolFailureContent "fatal") "tc", logs) ∧ logs.length = 1) := by
  constructor
  · exact (createToolErrorhandlerMiddleware_spec 3
      (fun i => if i < 2 then Except.error "boom" else Except.ok (42 : Nat)) "tc").1 2 42
      (by omega) (fun i hi => ⟨"boom", by interval_cases i <;> rfl⟩) rfl
  · exact (createToolErrorhandlerMiddleware_spec 2
      (fun _ => (Except.error "fatal" : Except String Nat)) "tc").2 (fun _ => "fatal")
      (by omega) (fun i hi => rfl)

/-! ## Claim C2 -/

/-- Counterexample to claim C2: in the execution of processTenantAlerts on
a concrete one-alert batch with a failing model, the side-effect trace
places the model invocation strictly before the creation of the Issue, so
the Issue shell is not persisted before the model is invoked and a model
call does precede the creation of the Issue. -/
theorem processTenantAlerts_shell_after_model_counterexample :
    (processTenantAlerts (.throws "model transport failure")
      [⟨"a1", "t1", "prom", "system", "high", "CPU high", some "d", "open"⟩]
      ⟨0, [], [], [], [], []⟩).2.2 =
      [.toolsQueried, .modelInvoked, .issueCreated, .bindingsCreated, .alertsUpdated] ∧
    List.indexOf Event.modelInvoked
        [Event.toolsQueried, Event.modelInvoked, Event.issueCreated,
         Event.bindingsCreated, Event.alertsUpdated] <
      List.indexOf Event.issueCreated
        [Event.toolsQueried, Event.modelInvoked, Event.issueCreated,
         Event.bindingsCreated, Event.alertsUpdated] :=
  ⟨by decide, by decide⟩

/-- Claim C2 (amended): processing a non-empty single-tenant batch always
produces the side effects in the fixed order tools query, model
invocation, issue creation, bindings creation, alert update: the Issue is
persisted immediately after the model invocation rather than before it;
and because invoke catches every model error, exactly one Issue is still
appended to the store even when the model invocation fails. -/
theorem processTenantAlerts_model_then_issue (model : ModelBehavior) (a0 : Alert)
    (rest : List Alert) (db : DB) (t : String)
    (_htenant : ∀ a ∈ a0 :: rest, a.tenantId = t) :
    (processTenantAlerts model (a0 :: rest) db).2.2 =
      [.toolsQueried, .modelInvoked, .issueCreated, .bindingsCreated, .alertsUpdated] ∧
    ((processTenantAlerts model (a0 :: rest) db).2.1).issues =
      db.issues ++ [mkIssue db a0 (a0 :: rest) (invoke model)] ∧
    (∀ msg, model = .throws msg →
      ((processTenantAlerts model (a0 :: rest) db).2.1).issues =
        db.issues ++ [mkIssue db a0 (a0 :: rest)
          { conclusion := none, isRealIssue := none, errors := [msg] }]) := by
  refine ⟨?_, ?_, ?_⟩
  · simp [processTenantAlerts, createIssue, logAgentSteps]
  · simp [processTenantAlerts, createIssue, logAgentSteps]
  · intro msg hm
    subst hm
    simp [processTenantAlerts, createIssue, logAgentSteps, invoke]

/-- Witness for the amended claim C2 on a concrete one-alert batch whose
model call fails. -/
theorem processTenantAlerts_model_then_issue_witness :
    (processTenantAlerts (.throws "model down")
      [⟨"a1", "t1", "prom", "system", "high", "CPU high", some "d", "open"⟩]
      ⟨0, [], [], [], [], []⟩).2.2 =
      [.toolsQueried, .modelInvoked, .issueCreated, .bindingsCreated, .alertsUpdated] :=
  (processTenantAlerts_model_then_issue (.throws "model down")
    ⟨"a1", "t1", "prom", "system", "high", "CPU high", some "d", "open"⟩ []
    ⟨0, [], [], [], [], []⟩ "t1"
    (by intro a ha; rw [List.mem_singleton] at ha; subst ha; rfl)).1

/-! ## Claim C3 -/

/-- Claim C3: processing a non-empty single-tenant batch terminates having
appended exactly one Issue to the store, and the appended issue-alert
bindings are exactly one binding per alert of the batch, each pointing at
that single new Issue and together referencing exactly the ids of the
alerts of the batch; the returned row reports that issue with those alert
ids. -/
theorem processTenantAlerts_persists_batch (model : ModelBehavior) (a0 : Alert)
    (rest : List Alert) (db : DB) (t : String)
    (_htenant : ∀ a ∈ a0 :: rest, a.tenantId = t) :
    ((processTenantAlerts model (a0 :: rest) db).2.1).issues =
      db.issues ++ [mkIssue db a0 (a0 :: rest) (invoke model)] ∧
    ((processTenantAlerts model (a0 :: rest) db).2.1).bindings =
      db.bindings ++ (a0 :: rest).map (fun al =>
        ⟨al.tenantId, (mkIssue db a0 (a0 :: rest) (invoke model)).id, al.id⟩) ∧
    (((processTenantAlerts model (a0 :: rest) db).2.1).bindings.drop db.bindings.length).map
        (fun b => b.alertId) = (a0 :: rest).map (fun a => a.id) ∧
    (∀ b ∈ ((processTenantAlerts model (a0 :: rest) db).2.1).bindings.drop db.bindings.length,
      b.issueId = (mkIssue db a0 (a0 :: rest) (invoke model)).id) ∧
    (processTenantAlerts model (a0 :: rest) db).1 =
      [⟨(mkIssue db a0 (a0 :: rest) (invoke model)).id, (a0 :: rest).map (fun a => a.id),
        (invoke model).conclusion, (invoke model).isRealIssue, (invoke model).errors⟩] := by
  have hb : ((processTenantAlerts model (a0 :: rest) db).2.1).bindings =
      db.bindings ++ (a0 :: rest).map (fun al =>
        (⟨al.tenantId, (mkIssue db a0 (a0 :: rest) (invoke model)).id, al.id⟩ :
          IssueAlertBinding)) := by
    simp [processTenantAlerts, createIssue, logAgentSteps]
  refine ⟨?_, hb, ?_, ?_, ?_⟩
  · simp [processTenantAlerts, createIssue, logAgentSteps]
  · rw [hb, List.drop_left, List.map_map]
    rfl
  · intro b hbmem
    rw [hb, List.drop_left, List.mem_map] at hbmem
    obtain ⟨a, _, hab⟩ := hbmem
    rw [← hab]
  · simp [processTenantAlerts, createIssue, logAgentSteps]

/-- Witness for claim C3 on a concrete one-alert batch: the single
appended binding references exactly the id of the alert of the batch. -/
theorem processTenantAlerts_persists_batch_witness :
    ((processTenantAlerts (.throws "down")
      [⟨"a9", "t3", "s", "ty", "high", "T", none, "open"⟩]
      ⟨4, [], [], [], [], []⟩).2.1).bindings.map (fun b => b.alertId) = ["a9"] := by
  have h := (processTenantAlerts_persists_batch (.throws "down")
    ⟨"a9", "t3", "s", "ty", "high", "T", none, "open"⟩ [] ⟨4, [], [], [], [], []⟩ "t3"
    (by intro a ha; rw [List.mem_singleton] at ha; subst ha; rfl)).2.1
  rw [h]
  decide

/-! ## Claim C8 -/

/-- Claim C8: response parsing is modelled as a total function into an
optional value, the catch in parseXMLResponse mapping every internal
failure to null instead of an exception; whenever no analysis can be
produced (no extractable block, or all three recovery stages failed),
invoke reports a null isRealIssue and a null conclusion, and the pipeline
still persists the issue of the batch, which carries the analyzing status
and a null verdict. -/
theorem parse_failure_keeps_pipeline (text : String) (a0 : Alert) (rest : List Alert)
    (db : DB) (hp : parseXMLResponse text = none) :
    (invoke (.responds text)).isRealIssue = none ∧
    (invoke (.responds text)).conclusion = none ∧
    ((processTenantAlerts (.responds text) (a0 :: rest) db).2.1).issues =
      db.issues ++ [mkIssue db a0 (a0 :: rest) (invoke (.responds text))] ∧
    (mkIssue db a0 (a0 :: rest) (invoke (.responds text))).status = "analyzing" ∧
    (mkIssue db a0 (a0 :: rest) (invoke (.responds text))).isRealIssue = none := by
  have hinv : invoke (.responds text) =
      { conclusion := none, isRealIssue := none, errors := [] } := by
    simp [invoke, hp, determineIfRealIssueFromXML]
  refine ⟨by rw [hinv], by rw [hinv], ?_, ?_, ?_⟩
  · simp [processTenantAlerts, createIssue, logAgentSteps]
  · rw [hinv]
    rfl
  · rw [hinv]
    rfl

/-- Witness for claim C8 at a concrete response with no markup block. -/
theorem parse_failure_keeps_pipeline_witness :
    (invoke (.responds "the model replied with plain prose and no markup block")).isRealIssue =
      none :=
  (parse_failure_keeps_pipeline "the model replied with plain prose and no markup block"
    ⟨"a1", "t1", "s", "ty", "low", "T", none, "open"⟩ [] ⟨0, [], [], [], [], []⟩ rfl).1

/-! ## Claim C9 -/

theorem matchManualBinding_shape (compileRegex : RegexOracle)
    (bindings : List AlertSkillBinding) (alert : Alert) (m : SkillMatch)
    (h : matchManualBinding compileRegex bindings alert = some m) :
    m.confidence = 1 ∧ m.matchType = .manual_binding := by
  induction bindings with
  | nil => simp [matchManualBinding] at h
  | cons b rest ih =>
    by_cases hp : patternMatches compileRegex b.alertPattern alert
    · rw [matchManualBinding, if_pos hp, Option.some_inj] at h
      rw [← h]
      exact ⟨rfl, rfl⟩
    · rw [matchManualBinding, if_neg hp] at h
      exact ih h

theorem semanticFold_spec (alert : Alert) :
    ∀ (l : List Skill) (acc : Option Skill × ℚ),
      (acc.1 = none → acc.2 = 0) →
      (∀ b, acc.1 = some b → acc.2 = semanticScore alert b ∧ mkRat 1 10 < acc.2) →
      ((∀ b, (l.foldl (semanticStep alert) acc).1 = some b →
          (l.foldl (semanticStep alert) acc).2 = semanticScore alert b ∧
          mkRat 1 10 < (l.foldl (semanticStep alert) acc).2 ∧
          (b ∈ l ∨ acc.1 = some b)) ∧
       (∀ s ∈ l, semanticScore alert s ≤ (l.foldl (semanticStep alert) acc).2 ∨
          semanticScore alert s ≤ mkRat 1 10) ∧
       ((l.foldl (semanticStep alert) acc).1 = none →
          l.foldl (semanticStep alert) acc = acc ∧
          ∀ s ∈ l, semanticScore alert s ≤ mkRat 1 10) ∧
       acc.2 ≤ (l.foldl (semanticStep alert) acc).2) := by
  intro l
  induction l with
  | nil =>
    intro acc hnone hsome
    refine ⟨?_, ?_, ?_, le_refl _⟩
    · intro b hb
      exact ⟨(hsome b hb).1, (hsome b hb).2, Or.inr hb⟩
    · simp
    · intro _
      exact ⟨rfl, by simp⟩
  | cons s0 rest ih =>
    intro acc hnone hsome
    have hfold : (s0 :: rest).foldl (semanticStep alert) acc =
        rest.foldl (semanticStep alert) (semanticStep alert acc s0) := rfl
    by_cases hc : semanticScore alert s0 > acc.2 ∧ semanticScore alert s0 > mkRat 1 10
    · -- the skill is taken as the new best
      have hstep : semanticStep alert acc s0 = (some s0, semanticScore alert s0) := by
        simp [semanticStep, hc]
      obtain ⟨ih1, ih2, ih3, ih4⟩ :=
        ih (some s0, semanticScore alert s0)
          (by intro habs; exact absurd habs (by simp))
          (by intro b hb
              rw [Option.some_inj] at hb
              exact ⟨by rw [hb], hc.2⟩)
      rw [hfold, hstep]
      refine ⟨?_, ?_, ?_, ?_⟩
      · intro b hb
        obtain ⟨hs1, hs2, hs3⟩ := ih1 b hb
        refine ⟨hs1, hs2, ?_⟩
        rcases hs3 with hmem | hacc
        · exact Or.inl (List.mem_cons_of_mem s0 hmem)
        · rw [Option.some_inj] at hacc
          exact Or.inl (by rw [← hacc]; exact List.mem_cons_self s0 rest)
      · intro s hs
        rcases List.mem_cons.mp hs with hs0 | hrest
        · subst hs0
          exact Or.inl (le_trans (le_of_eq rfl) ih4)
        · exact ih2 s hrest
      · intro hres
        obtain ⟨heq, _⟩ := ih3 hres
        rw [heq] at hres
        exact absurd hres (by simp)
      · calc acc.2 ≤ semanticScore alert s0 := le_of_lt hc.1
          _ ≤ _ := ih4
    · -- the accumulator is kept
      have hstep : semanticStep alert acc s0 = acc := by
        simp only [semanticStep]
        rw [if_neg hc]
      have hbound : semanticScore alert s0 ≤ acc.2 ∨ semanticScore alert s0 ≤ mkRat 1 10 := by
        rcases not_and_or.mp hc with h1 | h1
        · exact Or.inl (le_of_not_lt h1)
        · exact Or.inr (le_of_not_lt h1)
      obtain ⟨ih1, ih2, ih3, ih4⟩ := ih acc hnone hsome
      rw [hfold, hstep]
      refine ⟨?_, ?_, ?_, ih4⟩
      · intro b hb
        obtain ⟨hs1, hs2, hs3⟩ := ih1 b hb
        refine ⟨hs1, hs2, ?_⟩
        rcases hs3 with hmem | hacc
        · exact Or.inl (List.mem_cons_of_mem s0 hmem)
        · exact Or.inr hacc
      · intro s hs
        rcases List.mem_cons.mp hs with hs0 | hrest
        · subst hs0
          rcases hbound with hb1 | hb1
          · exact Or.inl (le_trans hb1 ih4)
          · exact Or.inr hb1
        · exact ih2 s hrest
      · intro hres
        obtain ⟨heq, hall⟩ := ih3 hres
        refine ⟨heq, ?_⟩
        intro s hs
        rcases List.mem_cons.mp hs with hs0 | hrest
        · subst hs0
          rcases hbound with hb1 | hb1
          · have hacc0 : acc.2 = 0 := by
              apply hnone
              rw [heq] at hres
              exact hres
            rw [hacc0] at hb1
            exact le_trans hb1 (by decide)
          · exact hb1
        · exact hall s hrest

/-- Claim C9: matchSkill applies the semantic fallback exactly when no
manual binding matches: a manual-binding match is returned with confidence
one and the semantic stage is skipped (the outcome is independent of the
skill list); otherwise the outcome is the semantic match, and the semantic
stage returns an active skill whose keyword-similarity score is the
maximum over the active skills and exceeds one tenth, with that score as
confidence, or no match when every active skill scores at most one
tenth. -/
theorem matchSkill_semantic_fallback (compileRegex : RegexOracle)
    (bindings : List AlertSkillBinding) (skills : List Skill) (alert : Alert) :
    (∀ m, matchManualBinding compileRegex bindings alert = some m →
      (matchSkill compileRegex bindings skills alert = some m ∧
       m.confidence = 1 ∧ m.matchType = .manual_binding ∧
       ∀ skills2 : List Skill, matchSkill compileRegex bindings skills2 alert = some m)) ∧
    (matchManualBinding compileRegex bindings alert = none →
      matchSkill compileRegex bindings skills alert = matchSemantic skills alert) ∧
    (∀ m, matchSemantic skills alert = some m →
      (m.matchType = .semantic ∧
       m.skill ∈ skills.filter (fun s => s.status == "active") ∧
       m.confidence = semanticScore alert m.skill ∧
       mkRat 1 10 < m.confidence ∧
       ∀ s ∈ skills.filter (fun s => s.status == "active"),
         semanticScore alert s ≤ m.confidence)) ∧
    (matchSemantic skills alert = none →
      ∀ s ∈ skills.filter (fun s => s.status == "active"),
        semanticScore alert s ≤ mkRat 1 10) := by
  obtain ⟨hf1, hf2, hf3, hf4⟩ :=
    semanticFold_spec alert (skills.filter (fun s => s.status == "active")) (none, 0)
      (fun _ => rfl) (by intro b hb; exact absurd hb (by simp))
  refine ⟨?_, ?_, ?_, ?_⟩
  · intro m hm
    refine ⟨by rw [matchSkill, hm], (matchManualBinding_shape _ _ _ _ hm).1,
      (matchManualBinding_shape _ _ _ _ hm).2, ?_⟩
    intro skills2
    rw [matchSkill, hm]
  · intro hm
    rw [matchSkill, hm]
  · intro m hm
    simp only [matchSemantic] at hm
    by_cases hemp : (skills.filter (fun s => s.status == "active")).isEmpty
    · rw [if_pos hemp] at hm
      exact absurd hm (by simp)
    · rw [if_neg hemp] at hm
      cases hbest : ((skills.filter (fun s => s.status == "active")).foldl
          (semanticStep alert) (none, 0)).1 with
      | none => rw [hbest] at hm; exact absurd hm (by simp)
      | some s =>
        rw [hbest] at hm
        simp only [Option.some_inj] at hm
        obtain ⟨he1, he2, he3⟩ := hf1 s hbest
        have hmem : s ∈ skills.filter (fun s => s.status == "active") := by
          rcases he3 with h | h
          · exact h
          · exact absurd h (by simp)
        refine ⟨by rw [← hm], by rw [← hm]; exact hmem, ?_, ?_, ?_⟩
        · rw [← hm]
          exact he1
        · rw [← hm]
          exact he2
        · intro s2 hs2
          rw [← hm]
          rcases hf2 s2 hs2 with h | h
          · exact h
          · exact le_trans h (le_of_lt he2)
  · intro hm
    simp only [matchSemantic] at hm
    by_cases hemp : (skills.filter (fun s => s.status == "active")).isEmpty
    · intro s hs
      rw [List.isEmpty_iff] at hemp
      rw [hemp] at hs
      exact absurd hs (by simp)
    · rw [if_neg hemp] at hm
      cases hbest : ((skills.filter (fun s => s.status == "active")).foldl
          (semanticStep alert) (none, 0)).1 with
      | some s => rw [hbest] at hm; exact absurd hm (by simp)
      | none => exact (hf3 hbest).2

/-- Witness for claim C9 at a concrete alert and skill list: with no
bindings the matcher equals the semantic stage, the semantic match scores
two sevenths (above the threshold), and every active skill scores at most
that. -/
theorem matchSkill_semantic_fallback_witness :
    (matchSkill (fun _ => none) []
      [⟨"s2", "disk full", "disk space exhausted", "clean disk", "active"⟩,
       ⟨"s1", "High CPU usage handling", "When cpu usage goes high", "restart things", "active"⟩]
      ⟨"a1", "t1", "prom", "system", "high", "CPU usage too high", some "cpu at 95", "open"⟩ =
     matchSemantic
      [⟨"s2", "disk full", "disk space exhausted", "clean disk", "active"⟩,
       ⟨"s1", "High CPU usage handling", "When cpu usage goes high", "restart things", "active"⟩]
      ⟨"a1", "t1", "prom", "system", "high", "CPU usage too high", some "cpu at 95", "open"⟩) ∧
    mkRat 1 10 <
      (⟨⟨"s1", "High CPU usage handling", "When cpu usage goes high", "restart things",
        "active"⟩, .semantic, mkRat 2 7⟩ : SkillMatch).confidence := by
  constructor
  · exact (matchSkill_semantic_fallback (fun _ => none) [] _ _).2.1 rfl
  · exact ((matchSkill_semantic_fallback (fun _ => none) []
      [⟨"s2", "disk full", "disk space exhausted", "clean disk", "active"⟩,
       ⟨"s1", "High CPU usage handling", "When cpu usage goes high", "restart things", "active"⟩]
      ⟨"a1", "t1", "prom", "system", "high", "CPU usage too high", some "cpu at 95",
        "open"⟩).2.2.1
      ⟨⟨"s1", "High CPU usage handling", "When cpu usage goes high", "restart things",
        "active"⟩, .semantic, mkRat 2 7⟩ (by decide)).2.2.2.1

end Ondutycat
